import Mathlib

/-!
Shallow embedding of the local-recall dashboard frontend
(`frontend-nextjs`): the streaming query consumer in
`components/tabs/search-tab.tsx`, the API client in `lib/api.ts`, the
notification poller in `app/page.tsx`, the upload form's tag editing, and
the `Slider` control.  JavaScript numbers that are only carried through
(relevance scores) are modelled as `Rat`; no floating-point arithmetic is
performed on them anywhere in the embedded code.
-/

namespace LocalRecall

/-- Relevance scores are JS numbers; the frontend only copies and compares
them, so we model them as rationals. -/
abbrev Score := Rat

/-- The entry record as consumed by the search-tab result cards
(`result.entry`): id, source and timestamp are always present; `content`
is absent (`none`) on the transformed RAG sources; an absent `tags` array
renders the same as an empty one, so it is modelled as a list. -/
structure ResultEntry where
  id : Nat
  source : String
  timestamp : String
  content : Option String
  tags : List String
deriving Repr, DecidableEq

/-- `SearchResult` from `lib/types.ts`: an entry plus its relevance score. -/
structure SearchResult where
  entry : ResultEntry
  relevance_score : Score
deriving Repr, DecidableEq

/-- `RAGResponse` from `lib/types.ts`. -/
structure RAGResponse where
  answer : String
  sources : List SearchResult
  model : String
  query : String
deriving Repr, DecidableEq

/-- One source object of the backend's `metadata` stream event, with the
fields the consumer reads (`source.id`, `source.source`,
`source.timestamp`, `source.score`). -/
structure SourceJson where
  id : Nat
  source : String
  timestamp : String
  score : Score
deriving Repr, DecidableEq

/-- A parsed server-sent event (`JSON.parse(event.data)`) with the fields
the `onmessage` handler reads: the `type` discriminator, the `content`
payload, and the `sources` array of a `metadata` event.  An absent
`content` is modelled as `""` (both are falsy in the handler's only
truthiness test on it). -/
structure StreamEventData where
  type : String
  content : String
  sources : List SourceJson
deriving Repr, DecidableEq

/-- A toast as produced by `useToast` (title / description / variant). -/
structure Toast where
  title : String
  description : String
  variant : String
deriving Repr, DecidableEq

/-- The `SearchTab` component state touched by `handleSearch`:
`loading`, `ragResponse`, `searchResults`, `streamingAnswer`, the toast
list, and whether the `EventSource` has been closed. -/
structure SearchState where
  loading : Bool
  ragResponse : Option RAGResponse
  searchResults : List SearchResult
  streamingAnswer : String
  toasts : List Toast
  streamClosed : Bool
deriving Repr, DecidableEq

/-- `search-tab.tsx` lines 54–61: map a backend source object to the
frontend `SearchResult` shape — only id / source / timestamp / score are
copied; no text content. -/
def transformSource (s : SourceJson) : SearchResult :=
  { entry := { id := s.id, source := s.source, timestamp := s.timestamp,
               content := none, tags := [] }
    relevance_score := s.score }

/-- The `data.sources.map(...)` call of the `metadata` branch. -/
def transformSources (ss : List SourceJson) : List SearchResult :=
  ss.map transformSource

/-- A destructive "Error" toast as issued by `handleSearch`. -/
def errorToast (msg : String) : Toast :=
  { title := "Error", description := msg, variant := "destructive" }

/-- The `eventSource.onmessage` handler of `handleSearch`
(`search-tab.tsx` lines 47–75): dispatch on `data.type`; `answer_chunk`
appends `data.content` to the streaming answer; `metadata` replaces the
search results with the transformed `data.sources`; `done` stops loading
and closes the stream; `error` toasts `data.content || "Streaming
failed"`, stops loading and closes the stream; any other type falls
through every branch and changes nothing. -/
def onMessage (st : SearchState) (d : StreamEventData) : SearchState :=
  if d.type = "answer_chunk" then
    { st with streamingAnswer := st.streamingAnswer ++ d.content }
  else if d.type = "metadata" then
    { st with searchResults := transformSources d.sources }
  else if d.type = "done" then
    { st with loading := false, streamClosed := true }
  else if d.type = "error" then
    { st with
        toasts := st.toasts ++
          [errorToast (if d.content = "" then "Streaming failed" else d.content)]
        loading := false
        streamClosed := true }
  else st

/-- `EventSource` delivery: after `eventSource.close()` the browser fires
no further `onmessage` callbacks, so a closed stream absorbs events. -/
def deliverEvent (st : SearchState) (d : StreamEventData) : SearchState :=
  if st.streamClosed then st else onMessage st d

/-- Deliver a whole sequence of stream events to the consumer. -/
def deliverEvents (st : SearchState) (ds : List StreamEventData) : SearchState :=
  ds.foldl deliverEvent st

/-- A terminal stream event: `done` or `error` (the two branches that
close the `EventSource`). -/
def isTerminal (d : StreamEventData) : Bool :=
  d.type == "done" || d.type == "error"

/-- `handleSearch` lines 37–40: clear all previous results before any
request is issued. -/
def startSearch (st : SearchState) : SearchState :=
  { st with
      loading := true
      ragResponse := none
      searchResults := []
      streamingAnswer := "" }

/-- `api.queryStream` creates a fresh `EventSource`, so the stream starts
open. -/
def openStream (st : SearchState) : SearchState :=
  { st with streamClosed := false }

/-- JS `String.prototype.trim`: strip leading and trailing whitespace
(modelled over the string's character list so it is kernel-computable). -/
def trimString (s : String) : String :=
  ⟨((s.data.dropWhile Char.isWhitespace).reverse.dropWhile Char.isWhitespace).reverse⟩

/-- The search-only branch of `handleSearch` (lines 31–41, 87–99): the
empty-query guard, clearing, then either `setSearchResults(results)` on
success or an error toast on rejection — the results are never
repopulated on the error path. -/
def handleSearchOnly (st : SearchState) (query : String)
    (res : Except String (List SearchResult)) : SearchState :=
  if trimString query = "" then
    { st with toasts := st.toasts ++ [errorToast "Please enter a search query"] }
  else
    let st1 := startSearch st
    match res with
    | .ok results => { st1 with searchResults := results, loading := false }
    | .error msg =>
        { st1 with toasts := st1.toasts ++ [errorToast msg], loading := false }

/-- The `content` payloads of the `answer_chunk` events of a stream, in
arrival order. -/
def chunkPayloads (ds : List StreamEventData) : List String :=
  (ds.filter (fun d => d.type == "answer_chunk")).map (·.content)

/-- An `answer_chunk` event carrying one content fragment. -/
def chunkEvent (c : String) : StreamEventData :=
  { type := "answer_chunk", content := c, sources := [] }

/-- A `metadata` event carrying the retrieval sources. -/
def metadataEvent (ss : List SourceJson) : StreamEventData :=
  { type := "metadata", content := "", sources := ss }

/-- The terminal `done` event. -/
def doneEvent : StreamEventData :=
  { type := "done", content := "", sources := [] }

/-- An `error` event carrying a human-readable message. -/
def errorEvent (msg : String) : StreamEventData :=
  { type := "error", content := msg, sources := [] }

/-- Modelled from the spec: the Query Engine's `answer` streaming emitter
(the Python backend serving `/query/stream` is not under `src/`).  Per
§4.5, on success it emits the content fragments in arrival order, then
exactly one sources event, then one terminal `done`; on failure it emits
the fragments produced before the failure and then one `error` event, and
nothing follows a terminal event. -/
def emitStream (frags : List String) (srcs : List SourceJson) :
    Option String → List StreamEventData
  | none => frags.map chunkEvent ++ [metadataEvent srcs, doneEvent]
  | some errMsg => frags.map chunkEvent ++ [errorEvent errMsg]

/-! ### The API client (`lib/api.ts`) -/

/-- `QueryRequest` from `lib/types.ts`. -/
structure QueryRequest where
  query : String
  model : String
  k : Int
deriving Repr, DecidableEq

/-- The URL search parameters built by `api.queryStream` (`api.ts`): it
appends `query`, `model` and `k` unconditionally. -/
def queryStreamParams (r : QueryRequest) : List (String × String) :=
  [("query", r.query), ("model", r.model), ("k", toString r.k)]

/-- The JSON body fields of the non-streaming `api.query` POST:
`JSON.stringify(request)` serialises exactly the three `QueryRequest`
fields. -/
def queryRequestBody (r : QueryRequest) : List (String × String) :=
  [("query", r.query), ("model", r.model), ("k", toString r.k)]

/-- The URL search parameters built by `api.search` (`api.ts`): it
appends `query` and `k` only — no model. -/
def searchRequestParams (query : String) (k : Int) : List (String × String) :=
  [("query", query), ("k", toString k)]

/-- The optional filter object accepted by `api.getData`. -/
structure DataParams where
  source : Option String
  tag : Option String
  limit : Option Nat
deriving Repr, DecidableEq

/-- JS truthiness of an optional string (`undefined` and `""` are falsy). -/
def truthyStr : Option String → Bool
  | some s => s ≠ ""
  | none => false

/-- JS truthiness of an optional number (`undefined` and `0` are falsy). -/
def truthyNat : Option Nat → Bool
  | some n => n ≠ 0
  | none => false

/-- The URL search parameters built by `api.getData` (`api.ts` lines
181–186): each of `source`, `tag`, `limit` is appended only when the
corresponding field is truthy (`if (params?.source) ...`). -/
def getDataParams (p : DataParams) : List (String × String) :=
  (if truthyStr p.source then [("source", p.source.getD "")] else []) ++
  (if truthyStr p.tag then [("tag", p.tag.getD "")] else []) ++
  (if truthyNat p.limit then [("limit", toString (p.limit.getD 0))] else [])

/-- The optional parameter object accepted by `api.getNotifications`. -/
structure NotificationQuery where
  since_id : Option Nat
  unread_only : Option Bool
  limit : Option Nat
deriving Repr, DecidableEq

/-- The URL search parameters built by `api.getNotifications` (`api.ts`
lines 259–264): `since_id` and `unread_only` are appended whenever they
are not `undefined` (an explicit `!== undefined` test, so `0` and `false`
are still sent), while `limit` is appended only when truthy. -/
def getNotificationsParams (p : NotificationQuery) : List (String × String) :=
  (match p.since_id with
   | some i => [("since_id", toString i)]
   | none => []) ++
  (match p.unread_only with
   | some b => [("unread_only", toString b)]
   | none => []) ++
  (if truthyNat p.limit then [("limit", toString (p.limit.getD 0))] else [])

/-- The HTTP response fields read by `fetchAPI`: `ok`, `status`,
`statusText` and the raw body handed to `response.json()`. -/
structure HttpResponse where
  ok : Bool
  status : Nat
  statusText : String
  body : String
deriving Repr, DecidableEq

/-- The `APIError` class of `lib/api.ts`: a status code and a message. -/
structure APIError where
  status : Nat
  message : String
deriving Repr, DecidableEq

/-- `fetchAPI` (`api.ts` lines 148–165): if the response is not ok, throw
an `APIError` carrying the response's status and statusText; otherwise
return the parsed JSON body.  Parsing is abstracted as a function
argument. -/
def fetchAPI {α : Type} (parseJson : String → α) (r : HttpResponse) :
    Except APIError α :=
  if !r.ok then
    .error { status := r.status, message := "API Error: " ++ r.statusText }
  else
    .ok (parseJson r.body)

/-! ### The `k` slider (`components/ui/slider.tsx`, `SearchTab`) -/

/-- The value reported by an HTML `<input type="range">` with integer
step: the platform clamps any attempted value into `[minV, maxV]` (HTML
range-input semantics; the repository's `Slider.handleChange` then
applies `parseInt` and forwards the value to `onValueChange`). -/
def rangeInputValue (minV maxV v : Int) : Int :=
  max minV (min maxV v)

/-- The `Slider` instance of `SearchTab` (search-tab.tsx line 149) is
configured with `min={1} max={10}`, so `setK` receives the clamped
value. -/
def setKFromSlider (v : Int) : Int :=
  rangeInputValue 1 10 v

/-- The `k` state after a sequence of slider interactions, starting from
the initial `useState(5)`. -/
def kAfter (vs : List Int) : Int :=
  vs.foldl (fun _ v => setKFromSlider v) 5

/-! ### Tag editing in the upload form (`UploadTab`) -/

/-- `handleAddTag` (upload form): on Enter or comma, trim the input; if
the trimmed tag is non-empty and not already present, append it and clear
the input; otherwise leave both unchanged.  Returns (tags, tagInput). -/
def handleAddTag (tags : List String) (tagInput : String) (key : String) :
    List String × String :=
  if key = "Enter" ∨ key = "," then
    if trimString tagInput ≠ "" ∧ ¬ tags.contains (trimString tagInput) then
      (tags ++ [trimString tagInput], "")
    else (tags, tagInput)
  else (tags, tagInput)

/-- `removeTag`: keep exactly the tags different from the clicked one. -/
def removeTag (tags : List String) (tag : String) : List String :=
  tags.filter (fun t => t ≠ tag)

/-- One user interaction with the tag editor: typing `input` into the tag
field and pressing `key`, or clicking a tag's remove badge. -/
inductive TagOp
  | add (input key : String)
  | remove (tag : String)
deriving Repr, DecidableEq

/-- Apply one tag interaction to the `(tags, tagInput)` state. -/
def applyTagOp : List String × String → TagOp → List String × String
  | (tags, _), .add input key => handleAddTag tags input key
  | (tags, inp), .remove tag => (removeTag tags tag, inp)

/-- The tag-editor state after a sequence of interactions, starting from
`useState<string[]>([])` and an empty input. -/
def applyTagOps (ops : List TagOp) : List String × String :=
  ops.foldl applyTagOp ([], "")

/-! ### Notification polling (`app/page.tsx`, spec §4.6) -/

/-- A notification as consumed by the poller in `page.tsx` (`id`,
`title`, `message`, `status`) together with the spec's `read` flag. -/
structure Notification where
  id : Nat
  title : String
  message : String
  status : String
  read : Bool
deriving Repr, DecidableEq

/-- A bus log whose ids are strictly ascending (spec §4.6: append-only
log of monotonically increasing ids). -/
def AscendingLog (log : List Notification) : Prop :=
  log.Pairwise (fun a b => a.id < b.id)

/-- Modelled from the spec: the Event/Notification Bus operation
`list(since_id, unread_only, limit) -> ordered sequence, ascending id`
(the Python backend serving `/notifications` is not under `src/`): the
entries of the log with id greater than `since_id`, unread ones only when
requested, truncated to `limit`. -/
def busList (log : List Notification) (since_id : Nat) (unread_only : Bool)
    (limit : Nat) : List Notification :=
  ((log.filter fun n => since_id < n.id && (!unread_only || !n.read)).take limit)

/-- The cursor update of `pollNotifications` (`page.tsx` lines 35–48):
for a notification with a truthy title, if its id is truthy and greater
than the current last-seen id, the cursor becomes that id. -/
def pollCursorUpdate (c : Nat) (n : Notification) : Nat :=
  if n.title ≠ "" then
    if n.id ≠ 0 ∧ c < n.id then n.id else c
  else c

/-- The ids toasted by one poll: the returned notifications with a truthy
title. -/
def displayedIds (ns : List Notification) : List Nat :=
  (ns.filter fun n => n.title ≠ "").map (·.id)

/-- One `pollNotifications` round against a given bus log: request
`{since_id: cursor, unread_only: true, limit: 10}`, toast each titled
notification and advance the cursor.  Returns the new cursor and the
displayed ids. -/
def pollOnce (log : List Notification) (c : Nat) : Nat × List Nat :=
  let ns := busList log c true 10
  (ns.foldl pollCursorUpdate c, displayedIds ns)

/-- Run the poller over a sequence of polls; `logs` gives the bus log
visible at each poll (the environment may publish and mark-read between
polls).  Returns the final cursor and all displayed ids in order. -/
def runPolls : Nat → List (List Notification) → Nat × List Nat
  | c, [] => (c, [])
  | c, log :: rest =>
    let p := pollOnce log c
    let r := runPolls p.1 rest
    (r.1, p.2 ++ r.2)

/-! ### Result-card rendering (`SearchTab`, lines 195–253) -/

/-- `getRelevanceColor` (`search-tab.tsx` lines 102–106). -/
def getRelevanceColor (score : Score) : String :=
  if score > 0.8 then "bg-green-500"
  else if score > 0.6 then "bg-yellow-500"
  else "bg-orange-500"

/-- The information a rendered result card shows, in the order the JSX
produces it: the id badge, the source badge, the relevance dot colour and
percentage, the timestamp, and the body text. -/
structure SourceCardView where
  idBadge : Nat
  sourceBadge : String
  relevanceColor : String
  relevancePct : Score
  timestamp : String
  body : String
deriving Repr, DecidableEq

/-- Render one result card (`search-tab.tsx` lines 195–253): entries with
content show a 300-character excerpt; entries without content show the
"Source reference" placeholder in RAG mode and nothing otherwise. -/
def renderResultCard (useRag : Bool) (r : SearchResult) : SourceCardView :=
  { idBadge := r.entry.id
    sourceBadge := r.entry.source
    relevanceColor := getRelevanceColor r.relevance_score
    relevancePct := r.relevance_score * 100
    timestamp := r.entry.timestamp
    body :=
      match r.entry.content with
      | some c => if c.length > 300 then c.take 300 ++ "..." else c
      | none =>
        if useRag then "Source reference (content used in answer generation)"
        else "" }

/-! ### Shared helpers and fixtures -/

/-- Concatenation of a list of strings, in order. -/
def joinAll : List String → String
  | [] => ""
  | s :: l => s ++ joinAll l

/-- A fresh `SearchTab` state (every `useState` at its initial value). -/
def stEmpty : SearchState :=
  { loading := false, ragResponse := none, searchResults := []
    streamingAnswer := "", toasts := [], streamClosed := false }

/-- A sample backend source object. -/
def srcA : SourceJson :=
  { id := 1, source := "clipboard", timestamp := "2024-01-01T00:00:00", score := 1 }

/-- A sample bus notification. -/
def notifA : Notification :=
  { id := 1, title := "Embedding complete", message := "2 entries embedded"
    status := "success", read := false }

/-! ## Helper lemmas about the stream consumer -/

theorem onMessage_chunk (st : SearchState) (d : StreamEventData)
    (h : d.type = "answer_chunk") :
    onMessage st d = { st with streamingAnswer := st.streamingAnswer ++ d.content } := by
  simp [onMessage, h]

theorem onMessage_metadata (st : SearchState) (d : StreamEventData)
    (h : d.type = "metadata") :
    onMessage st d = { st with searchResults := transformSources d.sources } := by
  simp [onMessage, h]

theorem onMessage_done (st : SearchState) (d : StreamEventData)
    (h : d.type = "done") :
    onMessage st d = { st with loading := false, streamClosed := true } := by
  simp [onMessage, h]

theorem onMessage_error (st : SearchState) (d : StreamEventData)
    (h : d.type = "error") :
    onMessage st d =
      { st with
          toasts := st.toasts ++
            [errorToast (if d.content = "" then "Streaming failed" else d.content)]
          loading := false
          streamClosed := true } := by
  simp [onMessage, h]

theorem onMessage_other (st : SearchState) (d : StreamEventData)
    (h1 : d.type ≠ "answer_chunk") (h2 : d.type ≠ "metadata")
    (h3 : d.type ≠ "done") (h4 : d.type ≠ "error") :
    onMessage st d = st := by
  simp [onMessage, h1, h2, h3, h4]

theorem isTerminal_false_iff (d : StreamEventData) :
    isTerminal d = false ↔ d.type ≠ "done" ∧ d.type ≠ "error" := by
  simp [isTerminal]

theorem onMessage_streamClosed (st : SearchState) (d : StreamEventData)
    (h : isTerminal d = false) :
    (onMessage st d).streamClosed = st.streamClosed := by
  rw [isTerminal_false_iff] at h
  unfold onMessage
  split_ifs <;> simp_all

theorem onMessage_streamingAnswer_of_ne (st : SearchState) (d : StreamEventData)
    (h : d.type ≠ "answer_chunk") :
    (onMessage st d).streamingAnswer = st.streamingAnswer := by
  unfold onMessage
  split_ifs <;> simp_all

theorem deliverEvent_streamClosed (st : SearchState) (d : StreamEventData)
    (h : isTerminal d = false) :
    (deliverEvent st d).streamClosed = st.streamClosed := by
  unfold deliverEvent
  split_ifs
  · rfl
  · exact onMessage_streamClosed st d h

theorem deliverEvent_streamingAnswer_of_ne (st : SearchState) (d : StreamEventData)
    (h : d.type ≠ "answer_chunk") :
    (deliverEvent st d).streamingAnswer = st.streamingAnswer := by
  unfold deliverEvent
  split_ifs
  · rfl
  · exact onMessage_streamingAnswer_of_ne st d h

theorem deliverEvent_closes (st : SearchState) (t : StreamEventData)
    (h : isTerminal t = true) :
    (deliverEvent st t).streamClosed = true := by
  have h' : t.type = "done" ∨ t.type = "error" := by
    simpa [isTerminal] using h
  unfold deliverEvent
  split_ifs with hc
  · exact hc
  · rcases h' with h' | h'
    · rw [onMessage_done st t h']
    · rw [onMessage_error st t h']

theorem deliverEvents_append (st : SearchState) (l1 l2 : List StreamEventData) :
    deliverEvents st (l1 ++ l2) = deliverEvents (deliverEvents st l1) l2 := by
  simp [deliverEvents, List.foldl_append]

theorem deliverEvents_of_closed (st : SearchState) (ds : List StreamEventData)
    (h : st.streamClosed = true) : deliverEvents st ds = st := by
  induction ds with
  | nil => rfl
  | cons d ds ih =>
    show deliverEvents (deliverEvent st d) ds = st
    have : deliverEvent st d = st := by simp [deliverEvent, h]
    rw [this, ih]

theorem deliverEvents_streamClosed (ds : List StreamEventData) (st : SearchState)
    (h : ∀ d ∈ ds, isTerminal d = false) :
    (deliverEvents st ds).streamClosed = st.streamClosed := by
  induction ds generalizing st with
  | nil => rfl
  | cons d ds ih =>
    show (deliverEvents (deliverEvent st d) ds).streamClosed = st.streamClosed
    rw [ih _ (fun x hx => h x (List.mem_cons_of_mem _ hx)),
      deliverEvent_streamClosed st d (h d (List.mem_cons_self _ _))]

theorem chunkPayloads_cons (d : StreamEventData) (ds : List StreamEventData) :
    chunkPayloads (d :: ds) =
      if d.type = "answer_chunk" then d.content :: chunkPayloads ds
      else chunkPayloads ds := by
  simp only [chunkPayloads, List.filter_cons]
  split_ifs with h1 h2 h3 <;> simp_all

theorem deliverEvents_streamingAnswer (ds : List StreamEventData) (st : SearchState)
    (hc : st.streamClosed = false) (ht : ∀ d ∈ ds, isTerminal d = false) :
    (deliverEvents st ds).streamingAnswer =
      st.streamingAnswer ++ joinAll (chunkPayloads ds) := by
  induction ds generalizing st with
  | nil => simp [deliverEvents, chunkPayloads, joinAll]
  | cons d ds ih =>
    have hd : isTerminal d = false := ht d (List.mem_cons_self _ _)
    have hds : ∀ x ∈ ds, isTerminal x = false :=
      fun x hx => ht x (List.mem_cons_of_mem _ hx)
    have hc' : (deliverEvent st d).streamClosed = false := by
      rw [deliverEvent_streamClosed st d hd, hc]
    show (deliverEvents (deliverEvent st d) ds).streamingAnswer = _
    rw [ih (deliverEvent st d) hc' hds, chunkPayloads_cons]
    by_cases h1 : d.type = "answer_chunk"
    · have : (deliverEvent st d).streamingAnswer = st.streamingAnswer ++ d.content := by
        simp [deliverEvent, hc, onMessage_chunk st d h1]
      rw [this, if_pos h1]
      show _ = st.streamingAnswer ++ (d.content ++ joinAll (chunkPayloads ds))
      rw [String.append_assoc]
    · rw [deliverEvent_streamingAnswer_of_ne st d h1, if_neg h1]

theorem chunkPayloads_map_chunkEvent (frags : List String) :
    chunkPayloads (frags.map chunkEvent) = frags := by
  induction frags with
  | nil => rfl
  | cons c l ih => simp [chunkPayloads, chunkEvent, List.filter_cons] at ih ⊢; exact ih

theorem chunkPayloads_append (l1 l2 : List StreamEventData) :
    chunkPayloads (l1 ++ l2) = chunkPayloads l1 ++ chunkPayloads l2 := by
  simp [chunkPayloads, List.filter_append]

theorem countP_chunks (frags : List String) :
    (frags.map chunkEvent).countP isTerminal = 0 := by
  rw [List.countP_eq_zero]
  intro a ha
  rcases List.mem_map.1 ha with ⟨c, _, rfl⟩
  simp [isTerminal, chunkEvent]

/-! ## Claim theorems -/

/-- C1, counterexample: the claim says every framed event carries its
payload under `content`, in particular the sources event.  In the code
the `metadata` (sources) branch reads `data.sources`, not `data.content`:
two metadata events with identical `type` and `content` but different
`sources` fields are handled differently, so the sources payload is not
carried under `content`. -/
theorem C1_sources_payload_counterexample :
    (metadataEvent [srcA]).type = (metadataEvent []).type ∧
    (metadataEvent [srcA]).content = (metadataEvent []).content ∧
    onMessage stEmpty (metadataEvent [srcA]) ≠ onMessage stEmpty (metadataEvent []) := by
  refine ⟨rfl, rfl, fun h => ?_⟩
  have h2 := congrArg SearchState.searchResults h
  simp [onMessage, metadataEvent, transformSources, stEmpty] at h2

/-- C1, amended: every event delivered on the streaming channel is
dispatched on its `type` discriminator over exactly the framed types
`answer_chunk` (content fragment) / `metadata` (sources) / `done` /
`error`; the content-fragment and error payloads are carried under
`content`, while the sources event's payload is carried under a separate
`sources` field (and `done` carries no payload); an event of any other
type is ignored. -/
theorem C1_event_framing (st : SearchState) (d : StreamEventData) :
    (d.type = "answer_chunk" →
      onMessage st d = { st with streamingAnswer := st.streamingAnswer ++ d.content }) ∧
    (d.type = "metadata" →
      onMessage st d = { st with searchResults := transformSources d.sources }) ∧
    (d.type = "done" →
      onMessage st d = { st with loading := false, streamClosed := true }) ∧
    (d.type = "error" →
      onMessage st d =
        { st with
            toasts := st.toasts ++
              [errorToast (if d.content = "" then "Streaming failed" else d.content)]
            loading := false
            streamClosed := true }) ∧
    (d.type ≠ "answer_chunk" → d.type ≠ "metadata" → d.type ≠ "done" →
      d.type ≠ "error" → onMessage st d = st) :=
  ⟨onMessage_chunk st d, onMessage_metadata st d, onMessage_done st d,
    onMessage_error st d, onMessage_other st d⟩

theorem C1_event_framing_witness :
    onMessage stEmpty (chunkEvent "hi") =
      { stEmpty with streamingAnswer := stEmpty.streamingAnswer ++ (chunkEvent "hi").content } :=
  (C1_event_framing stEmpty (chunkEvent "hi")).1 rfl

/-- C2: the stream carries exactly one terminal event — `done` on
success, `error` on failure — and it is the last event emitted; and once
the consumer observes a terminal event it closes the `EventSource`, so
any later events are not processed. -/
theorem C2_single_terminal (frags : List String) (srcs : List SourceJson)
    (o : Option String) (st : SearchState) (pre : List StreamEventData)
    (t : StreamEventData) (post : List StreamEventData) :
    ((emitStream frags srcs o).countP isTerminal = 1 ∧
      ((emitStream frags srcs o).dropLast).countP isTerminal = 0) ∧
    (st.streamClosed = false → (∀ d ∈ pre, isTerminal d = false) →
      isTerminal t = true →
      deliverEvents st (pre ++ t :: post) = deliverEvent (deliverEvents st pre) t ∧
      (deliverEvent (deliverEvents st pre) t).streamClosed = true) := by
  constructor
  · cases o with
    | none =>
      have hsplit : emitStream frags srcs none =
          (frags.map chunkEvent ++ [metadataEvent srcs]) ++ [doneEvent] := by
        simp [emitStream]
      constructor
      · rw [hsplit]
        simp [List.countP_append, countP_chunks, List.countP_cons, isTerminal,
          metadataEvent, doneEvent, chunkEvent]
      · rw [hsplit, List.dropLast_concat]
        simp [List.countP_append, countP_chunks, List.countP_cons, isTerminal,
          metadataEvent, chunkEvent]
    | some msg =>
      have hsplit : emitStream frags srcs (some msg) =
          frags.map chunkEvent ++ [errorEvent msg] := by
        simp [emitStream]
      constructor
      · rw [hsplit]
        simp [List.countP_append, countP_chunks, List.countP_cons, isTerminal,
          errorEvent, chunkEvent]
      · rw [hsplit, List.dropLast_concat, countP_chunks]
  · intro hc hpre ht
    have h1 : deliverEvents st (pre ++ t :: post) =
        deliverEvents (deliverEvents st pre) (t :: post) :=
      deliverEvents_append st pre (t :: post)
    have hc1 : (deliverEvents st pre).streamClosed = false := by
      rw [deliverEvents_streamClosed pre st hpre, hc]
    have hclosed : (deliverEvent (deliverEvents st pre) t).streamClosed = true :=
      deliverEvent_closes (deliverEvents st pre) t ht
    refine ⟨?_, hclosed⟩
    rw [h1]
    show deliverEvents (deliverEvent (deliverEvents st pre) t) post = _
    exact deliverEvents_of_closed _ post hclosed

theorem C2_single_terminal_witness :
    deliverEvents stEmpty ([chunkEvent "a"] ++ doneEvent :: [chunkEvent "b"]) =
      deliverEvent (deliverEvents stEmpty [chunkEvent "a"]) doneEvent ∧
    (deliverEvent (deliverEvents stEmpty [chunkEvent "a"]) doneEvent).streamClosed = true :=
  (C2_single_terminal [] [] none stEmpty [chunkEvent "a"] doneEvent [chunkEvent "b"]).2
    rfl (by intro d hd; simp at hd; rw [hd]; simp [isTerminal, chunkEvent])
    (by simp [isTerminal, doneEvent])

/-- C4: the streaming answer shown to the user is exactly the
concatenation of the `answer_chunk` payloads in arrival order — no
reordering, dropping or duplication; in particular, consuming a complete
successful stream from a fresh search yields precisely the joined
fragments. -/
theorem C4_answer_is_fragment_concat (st : SearchState) (ds : List StreamEventData)
    (frags : List String) (srcs : List SourceJson) :
    (st.streamClosed = false → (∀ d ∈ ds, isTerminal d = false) →
      (deliverEvents st ds).streamingAnswer =
        st.streamingAnswer ++ joinAll (chunkPayloads ds)) ∧
    (deliverEvents (openStream (startSearch st)) (emitStream frags srcs none)).streamingAnswer
      = joinAll frags := by
  constructor
  · exact fun hc ht => deliverEvents_streamingAnswer ds st hc ht
  · have hsplit : emitStream frags srcs none =
        (frags.map chunkEvent ++ [metadataEvent srcs]) ++ [doneEvent] := by
      simp [emitStream]
    set st0 := openStream (startSearch st) with hst0
    have hc0 : st0.streamClosed = false := rfl
    have hnt : ∀ d ∈ frags.map chunkEvent ++ [metadataEvent srcs],
        isTerminal d = false := by
      intro d hd
      rcases List.mem_append.1 hd with hd | hd
      · rcases List.mem_map.1 hd with ⟨c, _, rfl⟩
        simp [isTerminal, chunkEvent]
      · simp at hd
        rw [hd]
        simp [isTerminal, metadataEvent]
    rw [hsplit, deliverEvents_append]
    have hdone : ∀ s1 : SearchState,
        (deliverEvents s1 [doneEvent]).streamingAnswer = s1.streamingAnswer := by
      intro s1
      show (deliverEvent s1 doneEvent).streamingAnswer = s1.streamingAnswer
      exact deliverEvent_streamingAnswer_of_ne s1 doneEvent (by simp [doneEvent])
    rw [hdone, deliverEvents_streamingAnswer _ st0 hc0 hnt, chunkPayloads_append,
      chunkPayloads_map_chunkEvent]
    have : chunkPayloads [metadataEvent srcs] = [] := by
      simp [chunkPayloads, metadataEvent]
    rw [this, List.append_nil]
    show "" ++ joinAll frags = joinAll frags
    exact String.empty_append _

theorem C4_answer_is_fragment_concat_witness :
    (deliverEvents stEmpty [chunkEvent "2 + 2", chunkEvent " = 4"]).streamingAnswer =
      stEmpty.streamingAnswer ++ joinAll (chunkPayloads [chunkEvent "2 + 2", chunkEvent " = 4"]) :=
  (C4_answer_is_fragment_concat stEmpty [chunkEvent "2 + 2", chunkEvent " = 4"] [] []).1
    rfl (by intro d hd; simp at hd; rcases hd with hd | hd <;> rw [hd] <;>
      simp [isTerminal, chunkEvent])

/-- C5: the sources event carries the retrieval candidates in order,
each bound to its entry id and score but with no entry text; the
consumer stores exactly the transformed list, and renders each such
source card from id / score / source / timestamp alone (a placeholder
body, since no content is available). -/
theorem C5_sources_without_text (ss : List SourceJson) (st : SearchState)
    (d : StreamEventData) (s : SourceJson) :
    ((transformSources ss).map (fun r => (r.entry.id, r.relevance_score)) =
      ss.map (fun s => (s.id, s.score))) ∧
    (∀ r ∈ transformSources ss, r.entry.content = none) ∧
    (d.type = "metadata" →
      onMessage st d = { st with searchResults := transformSources d.sources }) ∧
    (renderResultCard true (transformSource s) =
      { idBadge := s.id
        sourceBadge := s.source
        relevanceColor := getRelevanceColor s.score
        relevancePct := s.score * 100
        timestamp := s.timestamp
        body := "Source reference (content used in answer generation)" }) := by
  refine ⟨?_, ?_, onMessage_metadata st d, ?_⟩
  · simp [transformSources, transformSource]
  · intro r hr
    rcases List.mem_map.1 hr with ⟨x, _, rfl⟩
    rfl
  · rfl

theorem C5_sources_without_text_witness :
    onMessage stEmpty (metadataEvent [srcA]) =
      { stEmpty with searchResults := transformSources (metadataEvent [srcA]).sources } :=
  (C5_sources_without_text [] stEmpty (metadataEvent [srcA]) srcA).2.2.1 rfl

/-- C3, counterexample: the claim says every query submitted for
search-only or RAG mode carries `{query, model, k}`, but the search-only
request built by `api.search` carries only `query` and `k` — no `model`
parameter. -/
theorem C3_search_only_no_model_counterexample :
    (searchRequestParams "what is 2+2" 5).map Prod.fst = ["query", "k"] ∧
    "model" ∉ (searchRequestParams "what is 2+2" 5).map Prod.fst := by
  refine ⟨rfl, ?_⟩
  decide

theorem kAfter_bounds_aux (vs : List Int) (c : Int) (h1 : 1 ≤ c) (h2 : c ≤ 10) :
    1 ≤ vs.foldl (fun _ v => setKFromSlider v) c ∧
      vs.foldl (fun _ v => setKFromSlider v) c ≤ 10 := by
  induction vs generalizing c with
  | nil => exact ⟨h1, h2⟩
  | cons v vs ih =>
    simp only [List.foldl_cons]
    exact ih (setKFromSlider v) (le_max_left 1 _)
      (max_le (by norm_num) (min_le_left 10 v))

/-- C3, amended: RAG queries — streaming (`api.queryStream`) and
non-streaming (`api.query`) — carry exactly `{query, model, k}`, while a
search-only query (`api.search`) carries `{query, k}` with no model; and
the `k` chosen through the search form's slider is always an integer
between 1 and 10 inclusive. -/
theorem C3_query_parameters (r : QueryRequest) (q : String) (vs : List Int) :
    (queryStreamParams r).map Prod.fst = ["query", "model", "k"] ∧
    (queryRequestBody r).map Prod.fst = ["query", "model", "k"] ∧
    (searchRequestParams q (kAfter vs)).map Prod.fst = ["query", "k"] ∧
    1 ≤ kAfter vs ∧ kAfter vs ≤ 10 := by
  have hb := kAfter_bounds_aux vs 5 (by norm_num) (by norm_num)
  exact ⟨rfl, rfl, rfl, hb.1, hb.2⟩

/-- C6: if a non-empty search-only query's request rejects, the handler
reports the error through a toast, the displayed result list is empty
(it was cleared before the request and is never repopulated on the error
path), and loading stops. -/
theorem C6_search_failure_no_stale_results (st : SearchState) (q msg : String)
    (h : trimString q ≠ "") :
    (handleSearchOnly st q (.error msg)).searchResults = [] ∧
    (handleSearchOnly st q (.error msg)).toasts = st.toasts ++ [errorToast msg] ∧
    (handleSearchOnly st q (.error msg)).loading = false ∧
    (startSearch st).searchResults = [] := by
  simp [handleSearchOnly, h, startSearch]

theorem C6_search_failure_no_stale_results_witness :
    (handleSearchOnly stEmpty "what is 2+2" (.error "Search failed")).searchResults = [] ∧
    (handleSearchOnly stEmpty "what is 2+2" (.error "Search failed")).toasts =
      stEmpty.toasts ++ [errorToast "Search failed"] ∧
    (handleSearchOnly stEmpty "what is 2+2" (.error "Search failed")).loading = false ∧
    (startSearch stEmpty).searchResults = [] :=
  C6_search_failure_no_stale_results stEmpty "what is 2+2" "Search failed" (by decide)

theorem handleAddTag_nodup (tags : List String) (input key : String)
    (h : tags.Nodup) : (handleAddTag tags input key).1.Nodup := by
  unfold handleAddTag
  split_ifs with h1 h2
  · simp only
    rw [List.nodup_append]
    refine ⟨h, List.nodup_singleton _, ?_⟩
    rw [List.disjoint_singleton]
    intro hmem
    apply h2.2
    simpa [List.contains] using List.elem_iff.mpr hmem
  · exact h
  · exact h

theorem applyTagOps_nodup_aux (ops : List TagOp) (s : List String × String)
    (h : s.1.Nodup) : (ops.foldl applyTagOp s).1.Nodup := by
  induction ops generalizing s with
  | nil => exact h
  | cons op ops ih =>
    obtain ⟨tags, inp⟩ := s
    apply ih
    cases op with
    | add input key => exact handleAddTag_nodup tags input key h
    | remove tag => exact h.filter _

theorem removeTag_eq_erase (tags : List String) (t : String) (h : tags.Nodup) :
    removeTag tags t = tags.erase t := by
  rw [h.erase_eq_filter t, removeTag]
  apply List.filter_congr
  intro x _
  by_cases hxt : x = t <;> simp [hxt]

/-- C8: the upload form's tag list behaves as a set: after any sequence
of add/remove interactions it contains no duplicate; adding an
already-present or empty tag leaves the list unchanged; and removing a
tag removes exactly that tag (on a duplicate-free list it coincides with
`List.erase`, and the removed tag is gone). -/
theorem C8_tags_form_set (ops : List TagOp) (tags : List String)
    (input key t : String) :
    (applyTagOps ops).1.Nodup ∧
    (trimString input = "" ∨ trimString input ∈ tags → (handleAddTag tags input key).1 = tags) ∧
    (tags.Nodup → removeTag tags t = tags.erase t) ∧
    t ∉ removeTag tags t := by
  refine ⟨applyTagOps_nodup_aux ops ([], "") List.nodup_nil, ?_,
    removeTag_eq_erase tags t, ?_⟩
  · intro h
    unfold handleAddTag
    split_ifs with h1 h2
    · exfalso
      rcases h with h | h
      · exact h2.1 h
      · exact h2.2 (by simpa [List.contains] using List.elem_iff.mpr h)
    · rfl
    · rfl
  · simp [removeTag, List.mem_filter]

theorem C8_tags_form_set_witness :
    (handleAddTag ["rust"] "rust" "Enter").1 = ["rust"] :=
  (C8_tags_form_set [] ["rust"] "rust" "Enter" "x").2.1 (Or.inr (by decide))

/-- C9, counterexample: the claim says a `source` parameter is carried if
and only if the caller supplied the optional `source` field; but
`getData` tests JS truthiness, so a supplied empty-string `source` adds
no parameter at all. -/
theorem C9_getData_truthiness_counterexample :
    ((⟨some "", none, none⟩ : DataParams).source.isSome = true) ∧
    getDataParams ⟨some "", none, none⟩ = [] :=
  ⟨rfl, rfl⟩

/-- C9, amended: the `getData` request carries a `source` / `tag` /
`limit` parameter exactly when the corresponding supplied field is
truthy (a non-empty string, resp. a non-zero limit); a field that is
omitted — or supplied falsy — adds nothing to the request. -/
theorem C9_getData_optional_params (p : DataParams) :
    (((getDataParams p).map Prod.fst).contains "source" = truthyStr p.source) ∧
    (((getDataParams p).map Prod.fst).contains "tag" = truthyStr p.tag) ∧
    (((getDataParams p).map Prod.fst).contains "limit" = truthyNat p.limit) := by
  obtain ⟨s, t, l⟩ := p
  unfold getDataParams
  cases hs : truthyStr s <;> cases ht : truthyStr t <;> cases hl : truthyNat l <;>
    simp

/-- C10: every operation routed through `fetchAPI` throws an `APIError`
carrying the response's status code whenever the response is not ok, and
returns the parsed JSON body otherwise — it never returns data from a
failed response. -/
theorem C10_fetchAPI_error_propagation {α : Type} (parseJson : String → α)
    (r : HttpResponse) :
    (r.ok = false →
      fetchAPI parseJson r =
        .error { status := r.status, message := "API Error: " ++ r.statusText }) ∧
    (r.ok = true → fetchAPI parseJson r = .ok (parseJson r.body)) ∧
    ((fetchAPI parseJson r).toOption.isSome = r.ok) := by
  unfold fetchAPI
  cases hr : r.ok <;> simp [Except.toOption]

theorem le_pollCursorUpdate (c : Nat) (n : Notification) :
    c ≤ pollCursorUpdate c n := by
  unfold pollCursorUpdate
  split_ifs with h1 h2
  · exact Nat.le_of_lt h2.2
  · exact Nat.le_refl c
  · exact Nat.le_refl c

theorem le_foldl_pollCursorUpdate (ns : List Notification) (c : Nat) :
    c ≤ ns.foldl pollCursorUpdate c := by
  induction ns generalizing c with
  | nil => exact Nat.le_refl c
  | cons n ns ih =>
    simp only [List.foldl_cons]
    exact Nat.le_trans (le_pollCursorUpdate c n) (ih _)

theorem id_le_foldl_pollCursorUpdate (ns : List Notification) (c : Nat)
    (n : Notification) (hn : n ∈ ns) (ht : n.title ≠ "") :
    n.id ≤ ns.foldl pollCursorUpdate c := by
  induction ns generalizing c with
  | nil => cases hn
  | cons m ms ih =>
    simp only [List.foldl_cons]
    rcases List.mem_cons.1 hn with rfl | hn'
    · refine Nat.le_trans ?_ (le_foldl_pollCursorUpdate ms _)
      unfold pollCursorUpdate
      rw [if_pos ht]
      split_ifs with h2
      · exact Nat.le_refl _
      · omega
    · exact ih _ hn'

theorem busList_mem_gt (log : List Notification) (since : Nat) (u : Bool)
    (lim : Nat) (n : Notification) (hn : n ∈ busList log since u lim) :
    since < n.id := by
  unfold busList at hn
  have h2 := List.of_mem_filter (List.mem_of_mem_take hn)
  simp only [Bool.and_eq_true, decide_eq_true_eq] at h2
  exact h2.1

theorem busList_pairwise (log : List Notification) (since : Nat) (u : Bool)
    (lim : Nat) (h : AscendingLog log) :
    (busList log since u lim).Pairwise (fun a b => a.id < b.id) :=
  List.Pairwise.sublist (List.take_sublist _ _) (List.Pairwise.filter _ h)

theorem displayedIds_pairwise (ns : List Notification)
    (h : ns.Pairwise (fun a b => a.id < b.id)) :
    (displayedIds ns).Pairwise (· < ·) :=
  List.Pairwise.map _ (fun _ _ hab => hab) (List.Pairwise.filter _ h)

theorem displayedIds_mem (ns : List Notification) (d : Nat)
    (hd : d ∈ displayedIds ns) :
    ∃ n, n ∈ ns ∧ n.title ≠ "" ∧ n.id = d := by
  unfold displayedIds at hd
  rcases List.mem_map.1 hd with ⟨n, hn, rfl⟩
  exact ⟨n, List.mem_of_mem_filter hn, by simpa using List.of_mem_filter hn, rfl⟩

theorem runPolls_invariant : ∀ (logs : List (List Notification)) (c : Nat),
    (∀ l ∈ logs, AscendingLog l) →
    c ≤ (runPolls c logs).1 ∧
      (∀ d ∈ (runPolls c logs).2, c < d ∧ d ≤ (runPolls c logs).1) ∧
      (runPolls c logs).2.Pairwise (· < ·)
  | [], c, _ => ⟨Nat.le_refl c, by simp [runPolls], by simp [runPolls]⟩
  | log :: rest, c, h => by
    have hlog : AscendingLog log := h log (List.mem_cons_self _ _)
    have hrest : ∀ l ∈ rest, AscendingLog l :=
      fun l hl => h l (List.mem_cons_of_mem _ hl)
    have hrun : runPolls c (log :: rest) =
        ((runPolls ((busList log c true 10).foldl pollCursorUpdate c) rest).1,
          displayedIds (busList log c true 10) ++
            (runPolls ((busList log c true 10).foldl pollCursorUpdate c) rest).2) := by
      simp [runPolls, pollOnce]
    obtain ⟨r1, r2, r3⟩ :=
      runPolls_invariant rest ((busList log c true 10).foldl pollCursorUpdate c) hrest
    have hA : c ≤ (busList log c true 10).foldl pollCursorUpdate c :=
      le_foldl_pollCursorUpdate _ c
    rw [hrun]
    refine ⟨Nat.le_trans hA r1, ?_, ?_⟩
    · intro d hd
      rcases List.mem_append.1 hd with hd | hd
      · obtain ⟨n, hn, htit, rfl⟩ := displayedIds_mem _ _ hd
        refine ⟨busList_mem_gt log c true 10 n hn, ?_⟩
        exact Nat.le_trans (id_le_foldl_pollCursorUpdate _ c n hn htit) r1
      · exact ⟨Nat.lt_of_le_of_lt hA (r2 d hd).1, (r2 d hd).2⟩
    · rw [List.pairwise_append]
      refine ⟨displayedIds_pairwise _ (busList_pairwise log c true 10 hlog), r3, ?_⟩
      intro a ha b hb
      obtain ⟨n, hn, htit, rfl⟩ := displayedIds_mem _ _ ha
      exact Nat.lt_of_le_of_lt (id_le_foldl_pollCursorUpdate _ c n hn htit) (r2 b hb).1

/-- C7: the notification-list request carries the `since_id`,
`unread_only` and `limit` parameters the poller supplies; the bus returns
notifications in strictly ascending id order (spec-modelled `list`); the
poller's last-seen-id cursor is only ever updated to a strictly larger
id, hence is monotonically non-decreasing across any sequence of polls;
and the displayed notification ids are strictly increasing over the whole
poll sequence — a notification already displayed is never displayed
again (the `since_id` filter excludes every id at or below the cursor). -/
theorem C7_notification_polling (c c' : Nat) (n : Notification)
    (logs : List (List Notification)) (log : List Notification)
    (since : Nat) (u : Bool) (lim : Nat) :
    (getNotificationsParams
        { since_id := some c, unread_only := some true, limit := some 10 } =
      [("since_id", toString c), ("unread_only", "true"), ("limit", "10")]) ∧
    (AscendingLog log →
      (busList log since u lim).Pairwise (fun a b => a.id < b.id)) ∧
    (pollCursorUpdate c' n = c' ∨ (c' < n.id ∧ pollCursorUpdate c' n = n.id)) ∧
    ((∀ l ∈ logs, AscendingLog l) →
      c ≤ (runPolls c logs).1 ∧ (runPolls c logs).2.Pairwise (· < ·) ∧
        (runPolls c logs).2.Nodup) := by
  refine ⟨?_, fun h => busList_pairwise log since u lim h, ?_, fun h => ?_⟩
  · simp only [getNotificationsParams, truthyNat]
    norm_num
    exact ⟨rfl, rfl⟩
  · unfold pollCursorUpdate
    split_ifs with h1 h2
    · exact Or.inr ⟨h2.2, rfl⟩
    · exact Or.inl rfl
    · exact Or.inl rfl
  · obtain ⟨r1, _, r3⟩ := runPolls_invariant logs c h
    exact ⟨r1, r3, r3.nodup⟩

theorem C7_notification_polling_witness :
    0 ≤ (runPolls 0 [[notifA]]).1 ∧
    (runPolls 0 [[notifA]]).2.Pairwise (· < ·) ∧
    (runPolls 0 [[notifA]]).2.Nodup :=
  (C7_notification_polling 0 0 notifA [[notifA]] [] 0 true 0).2.2.2
    (by intro l hl; simp at hl; rw [hl]; simp [AscendingLog])

theorem C10_fetchAPI_error_propagation_witness :
    fetchAPI (fun s => s) { ok := false, status := 404, statusText := "Not Found", body := "" } =
      .error { status := ({ ok := false, status := 404, statusText := "Not Found", body := "" } : HttpResponse).status
               message := "API Error: " ++
                 ({ ok := false, status := 404, statusText := "Not Found", body := "" } : HttpResponse).statusText } :=
  (C10_fetchAPI_error_propagation (fun s => s)
    { ok := false, status := 404, statusText := "Not Found", body := "" }).1 rfl

end LocalRecall
